import Mathlib

/-!
Verification of the asynchronous tensor-handle and op-dispatch core of the
tfrt excerpt: shallow embeddings of `TensorShape` (tensor_shape.h),
`TensorHandle` (tensor_handle.cc), the typed attribute views
(attribute_utils.h), and the core-runtime kernels `ExecuteOp`,
`ExecuteOpSeq` and `CoreRtConditional` (core_runtime/kernels.cc), together
with theorems settling the spec claims about them.
-/

namespace TfrtSpec

/-- Resolved state of a single-assignment AsyncValue cell: either a concrete
value or an error. The error payload is abstracted to a natural number; two
equal payloads denote the very same error ("verbatim" propagation is payload
equality). -/
inductive AVR where
  | concrete : AVR
  | error : Nat → AVR
deriving DecidableEq

/-- Returns true exactly when the cell holds a concrete (non-error) value,
mirroring `AsyncValue::IsConcrete`. -/
def AVR.isConcrete : AVR → Bool
  | .concrete => true
  | .error _ => false

/-! ## TensorShape: representation and move semantics (tensor_shape.h) -/

/-- Representation state of a `TensorShape` (tensor_shape.h lines 101-129):
the inline `Rep16` and `Rep32` variants hold the dimensions by value inside
the 16-byte union, while `RepExternal` owns separately allocated dimension
memory. The stored dimensions are modelled as the list of sizes. -/
inductive ShapeRep where
  | inlineRep16 (dims : List Nat)
  | inlineRep32 (dims : List Nat)
  | externalRep (dims : List Nat)
deriving DecidableEq

/-- Rank of a shape representation: the `rank` byte, which for every variant
equals the number of stored dimensions. -/
def ShapeRep.rank : ShapeRep → Nat
  | .inlineRep16 d => d.length
  | .inlineRep32 d => d.length
  | .externalRep d => d.length

/-- Whether the representation owns separately allocated dimension memory,
mirroring `TensorShape::IsRepresentationExternal`. -/
def ShapeRep.ownsExternalMemory : ShapeRep → Bool
  | .externalRep _ => true
  | _ => false

/-- Shallow embedding of the state in which `TensorShape`'s move constructor
and move assignment (tensor_shape.h lines 267-275 and 290-301) leave the
moved-from source: both first `memcpy` the representation into the
destination, and then only when the source used the external representation
do they reset the source to the inline `Rep16` state with rank 0; a source
using an inline representation is left untouched. -/
def movedFromState : ShapeRep → ShapeRep
  | .externalRep _ => .inlineRep16 []
  | r => r

/-- Shallow embedding of `TensorShape::TensorShape(TensorShape&&)`
(tensor_shape.h lines 267-275): the destination takes a bitwise copy of the
source representation (taking over the external memory when present), and the
source is left in `movedFromState`. Move assignment (lines 290-301) leaves
the pair in the same states after releasing the destination's old external
memory. -/
def moveConstruct (rhs : ShapeRep) : ShapeRep × ShapeRep :=
  (rhs, movedFromState rhs)

/-! ## FixedRankShape::GetNumElements (tensor_shape.h lines 307-314) -/

/-- Shallow embedding of `FixedRankShape::GetNumElements` (tensor_shape.h
lines 307-314): starts from `std::size_t result = 1` and multiplies every
dimension in order in `std::size_t` arithmetic, which wraps modulo 2^64 on
the runtime's 64-bit targets — so every step reduces modulo 2^64.
Dimensions are modelled as naturals, matching the data model's restriction to
non-negative sizes (a non-negative `ssize_t` converts to `size_t`
unchanged). -/
def fixedRankShapeNumElements (dims : List Nat) : Nat :=
  dims.foldl (fun result d => result * d % 18446744073709551616) 1

/-! ## TensorHandle error construction (tensor_handle.cc) -/

/-- Cell identifier for an AsyncValue cell; a state map `CellId → AVR`
assigns each cell its eventual resolved state. -/
abbrev CellId := Nat

/-- Metadata slot of a `TensorHandle`: either the metadata stored inline by
value (the tag bit set) or a deferred cell reference. -/
inductive MetadataSlot where
  | inlineMeta (md : Nat)
  | asyncMeta (cell : CellId)
deriving DecidableEq

/-- Shallow embedding of a `TensorHandle` (tensor_handle.cc): an optional
device reference, the metadata slot selected by the pointer-tag bit, and the
deferred tensor payload cell. -/
structure TensorHandleM where
  device : Option Nat
  metadata : MetadataSlot
  tensorCell : CellId
deriving DecidableEq

/-- Shallow embedding of `TensorHandle::CreateError` (tensor_handle.cc lines
66-71): the deferred metadata slot is built from `error.CopyRef()` and the
tensor payload from the original reference, so both slots alias the same
error cell; the device reference is absent. The `assert(error->IsError())`
precondition appears as the theorem hypothesis. -/
def TensorHandleM.createError (errorCell : CellId) : TensorHandleM :=
  ⟨none, .asyncMeta errorCell, errorCell⟩

/-- Resolve the deferred metadata slot of a handle under a cell-state map;
`none` when the metadata is stored inline (no deferred slot to resolve). -/
def resolveMetadata (σ : CellId → AVR) (h : TensorHandleM) : Option AVR :=
  match h.metadata with
  | .inlineMeta _ => none
  | .asyncMeta c => some (σ c)

/-- Resolve the deferred tensor payload of a handle under a cell-state map. -/
def resolveTensor (σ : CellId → AVR) (h : TensorHandleM) : AVR :=
  σ h.tensorCell

/-! ## Typed attribute views (attribute_utils.h) -/

/-- Modelled from the spec and the header's usage: the BEF attribute type
tags consumed by `attribute_utils.h` (`tfrt/support/bef_encoding.h` is not
under src/). The tags needed here are the aggregate tag, the dedicated
empty-array tag used for empty typed arrays, the typed-array tags, and the
remaining tags abstracted by a code. -/
inductive BEFAttrType where
  | aggregate
  | emptyArray
  | arrayOf (dt : Nat)
  | otherTag (t : Nat)
deriving DecidableEq

/-- Model of an encoded attribute as seen through the typed views: an
aggregate with its sub-attribute table (sub-attributes abstracted by ids), a
typed array with its elements, or some other attribute. An empty typed array
has the same layout as an empty aggregate (comment at attribute_utils.h lines
366-367), so its element count reads as 0 through either view. -/
inductive BEFAttrM where
  | aggregate (elems : List Nat)
  | typedArray (dt : Nat) (elems : List Nat)
  | scalar (t : Nat)
deriving DecidableEq

/-- Type tag stored in the attribute header: empty typed arrays are tagged
with the dedicated empty-array tag (their element type is not recorded). -/
def BEFAttrM.typeTag : BEFAttrM → BEFAttrType
  | .aggregate _ => .aggregate
  | .typedArray dt elems => if elems.isEmpty then .emptyArray else .arrayOf dt
  | .scalar t => .otherTag t

/-- Shallow embedding of `AggregateAttr::classof` (attribute_utils.h lines
365-370): the downcast to an aggregate view succeeds for the aggregate tag
and also for the empty-array tag. -/
def aggregateClassof (a : BEFAttrM) : Bool :=
  decide (a.typeTag = BEFAttrType.aggregate) ||
    decide (a.typeTag = BEFAttrType.emptyArray)

/-- Shallow embedding of `AggregateAttr::GetNumElements` (attribute_utils.h
line 363): reads the element count from the header — the sub-attribute count
for aggregates and the element count for arrays (0 for an empty array, whose
layout coincides with an empty aggregate's). -/
def aggregateNumElements : BEFAttrM → Nat
  | .aggregate es => es.length
  | .typedArray _ es => es.length
  | .scalar _ => 0

/-- Shallow embedding of `AggregateAttr::GetAttribute` (attribute_utils.h
lines 351-356): asserts `index < GetNumElements()` and then returns the
sub-attribute found through the per-element offset table; `none` models the
assertion failure, and sub-attributes are abstracted by their ids. -/
def aggregateGetAttribute (a : BEFAttrM) (i : Nat) : Option Nat :=
  if i < aggregateNumElements a then
    match a with
    | .aggregate es => es[i]?
    | _ => none
  else none

/-! ## ExecuteOp and ExecuteOpSeq (core_runtime/kernels.cc) -/

/-- Outcome of one `ExecuteOp` kernel invocation: the message reported via
`KernelErrorHandler` if any, whether the result placeholders were allocated,
whether `CoreRuntime::MakeOp` was invoked, and whether the op was actually
dispatched through `ExecuteOpImpl`. -/
structure OpOutcome where
  reported : Option String
  resultsAllocated : Bool
  madeOp : Bool
  opRun : Bool
deriving DecidableEq

/-- Shallow embedding of `ExecuteOp` (core_runtime/kernels.cc lines 206-224):
the runtime binding is checked first — with no runtime the kernel reports
"no CoreRuntime available" (returning normally, not throwing) before
constructing any op or allocating any result. Otherwise `MakeOp` runs (its
failure is reported before results are allocated), then every declared result
is allocated and the op is dispatched. -/
def executeOp (hasRuntime : Bool) (makeOpFailed : Bool) : OpOutcome :=
  if hasRuntime = false then
    ⟨some "no CoreRuntime available", false, false, false⟩
  else if makeOpFailed then ⟨some "MakeOp failed", false, true, false⟩
  else ⟨none, true, true, true⟩

/-- Outcome of one `ExecuteOpSeq` kernel invocation: reported message (if
any), whether results were allocated, whether `MakeOp` was invoked, whether
the op was actually run, the final state of the output chain (`none` when it
was never set, e.g. after an early report), and the final states of the
declared results. -/
structure SeqOutcome where
  reported : Option String
  resultsAllocated : Bool
  madeOp : Bool
  opRun : Bool
  outChain : Option AVR
  results : List AVR
deriving DecidableEq

/-- Modelled from the spec: `ExecuteOpImpl`
(`tfrt/core_runtime/execute_op_impl.h`) is not under src/ — only its callers
are. Per the spec, an error in the sequencing chain short-circuits by
forwarding the error to the chain and to every result without running the op;
otherwise the op is dispatched and the chain resolves to the op's own
completion signal (modelled as successful). Returns the updated chain, the
result states, and whether the op ran. -/
def executeOpImplModel (chain : AVR) (numResults : Nat) :
    AVR × List AVR × Bool :=
  match chain with
  | .error e => (.error e, List.replicate numResults (.error e), false)
  | .concrete => (.concrete, List.replicate numResults .concrete, true)

/-- Error propagation helper of `ExecuteOpSeq`'s slow-path continuation
(core_runtime/kernels.cc lines 282-285): sets the error on the output chain
and on every declared result. -/
def propagateErr (e : Nat) (madeOp : Bool) (numResults : Nat) : SeqOutcome :=
  ⟨none, true, madeOp, false, some (.error e),
    List.replicate numResults (.error e)⟩

/-- First error among a list of resolved argument states, in order — the
order in which the slow-path continuation scans `arg_refs`
(core_runtime/kernels.cc lines 295-299). -/
def firstError : List AVR → Option Nat
  | [] => none
  | .concrete :: rest => firstError rest
  | .error e :: _ => some e

/-- Shallow embedding of `ExecuteOpSeq` (core_runtime/kernels.cc lines
230-316) for the case where the op handler, the input chain and every
argument are already resolved (concrete or error) at invocation time. After
the runtime check and result allocation, the fast path (op handler and all
args concrete) makes the op and dispatches it with the chain; otherwise the
`RunWhenReady` continuation — firing immediately, as everything is already
available — checks the op handler, then the chain, then makes the op, then
scans the arguments for errors, and only then dispatches; the output chain
is resolved by the continuation registered on the op's completion signal.
`makeOpError` abstracts whether and how `CoreRuntime::MakeOp` fails. -/
def executeOpSeq (hasRuntime : Bool) (opHandler inChain : AVR)
    (args : List AVR) (makeOpError : Option Nat) (numResults : Nat) :
    SeqOutcome :=
  if hasRuntime = false then
    ⟨some "no CoreRuntime available", false, false, false, none, []⟩
  else if opHandler.isConcrete && args.all AVR.isConcrete then
    match makeOpError with
    | some _ => ⟨some "MakeOp failed", true, true, false, none, []⟩
    | none =>
        let r := executeOpImplModel inChain numResults
        ⟨none, true, true, r.2.2, some r.1, r.2.1⟩
  else
    match opHandler with
    | .error e => propagateErr e false numResults
    | .concrete =>
      match inChain with
      | .error e => propagateErr e false numResults
      | .concrete =>
        match makeOpError with
        | some e => propagateErr e true numResults
        | none =>
          match firstError args with
          | some e => propagateErr e true numResults
          | none =>
              let r := executeOpImplModel inChain numResults
              ⟨none, true, true, r.2.2, some r.1, r.2.1⟩

/-- First error checked by `ExecuteOpSeq` over its resolved inputs, in the
order the code checks them: the op handler, then the input chain, then the
arguments in order. -/
def seqFirstError (opHandler inChain : AVR) (args : List AVR) : Option Nat :=
  match opHandler with
  | .error e => some e
  | .concrete =>
    match inChain with
    | .error e => some e
    | .concrete => firstError args

/-- Helper: a list whose scan finds an error is not all-concrete. -/
theorem firstError_some_not_all_concrete (args : List AVR) (e : Nat)
    (h : firstError args = some e) : args.all AVR.isConcrete = false := by
  induction args with
  | nil => simp [firstError] at h
  | cons a rest ih =>
    cases a with
    | concrete =>
        simp only [firstError] at h
        rw [List.all_cons]
        show (true && rest.all AVR.isConcrete) = false
        rw [Bool.true_and]
        exact ih h
    | error e2 =>
        rw [List.all_cons]
        show (false && rest.all AVR.isConcrete) = false
        rw [Bool.false_and]

/-! ## Happens-before model of ExecuteOpSeq -/

/-- Event times of one `ExecuteOpSeq` invocation: when the readiness
continuation fires, when the op is dispatched, when the op's internal
completion signal resolves, and when the output chain becomes ready. -/
structure SeqTimes where
  fire : Nat
  dispatch : Nat
  opComplete : Nat
  outChainReady : Nat
deriving DecidableEq

/-- Modelled from the spec: the dispatch step of `ExecuteOpSeq` runs inside
`ExecuteOpImpl` (`tfrt/core_runtime/execute_op_impl.h`), which is not under
src/; per the spec's ordering contract the op starts only once the sequencing
chain is also ready. The remaining structure is the source's
(core_runtime/kernels.cc lines 243-316): the `RunWhenReady` continuation
fires once the op handler and every argument are available (on the fast path
everything is available at invocation time and it degenerates to running
immediately — the chain is still handed to `ExecuteOpImpl`, not ignored), the
op's completion signal resolves `opDur` after dispatch, and the output chain
is resolved by the `AndThen` continuation registered on that signal. Times
are instants on a global clock; an input's time is when it became ready. -/
def seqSchedule (handlerReady chainReady : Nat) (argsReady : List Nat)
    (opDur : Nat) : SeqTimes :=
  let fire := argsReady.foldl Nat.max handlerReady
  let dispatch := Nat.max fire chainReady
  ⟨fire, dispatch, dispatch + opDur, dispatch + opDur⟩

/-- Helper: the starting accumulator bounds a maximum fold from below. -/
theorem foldl_max_init_le (init : Nat) (l : List Nat) :
    init ≤ l.foldl Nat.max init := by
  induction l generalizing init with
  | nil => simp
  | cons x xs ih =>
      exact le_trans (Nat.le_max_left init x) (ih (Nat.max init x))

/-- Helper: every member of the list bounds a maximum fold from below. -/
theorem mem_le_foldl_max (l : List Nat) (init : Nat) (a : Nat) (ha : a ∈ l) :
    a ≤ l.foldl Nat.max init := by
  induction l generalizing init with
  | nil => cases ha
  | cons x xs ih =>
      rcases List.mem_cons.1 ha with h | h
      · subst h
        exact le_trans (Nat.le_max_right init a)
          (foldl_max_init_le (Nat.max init a) xs)
      · exact ih (Nat.max init x) h

/-! ## Conditional dispatch (CoreRtConditional, core_runtime/kernels.cc) -/

/-- Modelled from the spec: the dtype kinds enumerated by the runtime's dtype
set (`tfrt/dtype/dtype.def`, included at core_runtime/kernels.cc line 387, is
not under src/). Per the spec, the predicate kernel supports the boolean kind
and every integer/float kind, and asserts on the remaining kinds — here
represented by the string dtype kind. -/
inductive DTypeKind where
  | boolKind
  | i1
  | i8
  | i16
  | i32
  | i64
  | ui8
  | ui16
  | ui32
  | ui64
  | bf16
  | f16
  | f32
  | f64
  | stringKind
deriving DecidableEq

/-- Shallow embedding of `GetDHTPredicateValue` (core_runtime/kernels.cc
lines 371-389): a switch on the dense tensor's dtype kind — the boolean case
returns the stored element (stored as 0 or 1), each numeric case returns
whether the single element is nonzero, and every other kind reaches
`llvm_unreachable`. Elements are abstracted as integers; `none` models the
unreachable/assertion paths (unsupported kind, or a view not holding exactly
one element). -/
def getDHTPredicateValue (kind : DTypeKind) (elems : List Int) :
    Option Bool :=
  match elems with
  | [v] =>
    match kind with
    | .stringKind => none
    | _ => some (v != 0)
  | _ => none

/-- Host tensor handed to the predicate computation of `CoreRtConditional`:
either a dense host tensor (dtype kind plus elements) or a string host
tensor. -/
inductive HostTensorM where
  | dense (kind : DTypeKind) (elems : List Int)
  | strings (elems : List String)
deriving DecidableEq

/-- Shallow embedding of the predicate branch of the `if_impl` lambda of
`CoreRtConditional` (core_runtime/kernels.cc lines 456-472): a dense host
tensor uses `GetDHTPredicateValue`; a string host tensor is false exactly
when it has no strings or its first string is empty ("Only empty string is
false"). `none` models the assertion on unsupported tensor types/dtypes. -/
def condPredicate : HostTensorM → Option Bool
  | .dense k es => getDHTPredicateValue k es
  | .strings ss => some (!(ss.isEmpty || (ss.headD "") == ""))

/-- Shallow embedding of the rest of the `if_impl` lambda
(core_runtime/kernels.cc lines 474-483): selects `true_fn` when the predicate
holds and `false_fn` otherwise, invokes it on the arguments with the
condition dropped (`arg_refs.drop_front()`), and forwards its results into
the pre-allocated indirect result placeholders — modelled by returning the
selected predicate together with the forwarded result list. Functions are
abstracted as maps from argument lists to result lists over an abstract value
type. -/
def ifImpl (ht : HostTensorM) (trueFn falseFn : List Nat → List Nat)
    (args : List Nat) : Option (Bool × List Nat) :=
  match condPredicate ht with
  | none => none
  | some p => some (p, (if p then trueFn else falseFn) args.tail)

/-- Final contents of one indirect result placeholder of
`CoreRtConditional`: never forwarded, forwarded the error of a failed
operand, or forwarded a value produced by the selected function. -/
inductive CondResult where
  | unset
  | errorFwd (e : Nat)
  | value (v : Nat)
deriving DecidableEq

/-- Outcome of one `CoreRtConditional` invocation: the final contents of the
result placeholders, whether execution ran into a contract violation
(`get<...>` on a cell that is not concrete — an assertion failure in the
source), and which function was selected, if any (`some true` = `true_fn`).
-/
structure CondOutcome where
  results : List CondResult
  crashed : Bool
  selected : Option Bool
deriving DecidableEq

/-- Shallow embedding of the continuation chain of `CoreRtConditional`
(core_runtime/kernels.cc lines 486-528). The kernel is strict only on the
condition: it waits, in order, for the condition TensorHandle cell
(`handleState`), then the handle's underlying tensor cell (`tensorState`),
then the conversion of that tensor to a host tensor (`convState`, resolving
to `ht` when concrete); the other arguments are captured unexamined. At each
stage `handle_error_and_return` forwards a present error to every result
placeholder — but, being an ordinary lambda, it cannot return from the
enclosing continuation, which then falls through and reads the concrete
payload of the errored cell (`get<TensorHandle>()`, `get<Tensor>()`, or
dereferencing the host-tensor ref). Modelled from the spec on this point:
the AsyncValue primitive (external, restated in spec §5) makes reading the
concrete value of an error cell a contract violation, recorded here as
`crashed = true`. With all three stages concrete, `if_impl` computes the
predicate and runs the selected function. -/
def coreRtConditional (handleState tensorState convState : AVR)
    (ht : HostTensorM) (trueFn falseFn : List Nat → List Nat)
    (args : List Nat) (numResults : Nat) : CondOutcome :=
  match handleState with
  | .error e => ⟨List.replicate numResults (.errorFwd e), true, none⟩
  | .concrete =>
    match tensorState with
    | .error e => ⟨List.replicate numResults (.errorFwd e), true, none⟩
    | .concrete =>
      match convState with
      | .error e => ⟨List.replicate numResults (.errorFwd e), true, none⟩
      | .concrete =>
        match ifImpl ht trueFn falseFn args with
        | none => ⟨List.replicate numResults .unset, true, none⟩
        | some (p, rs) => ⟨rs.map .value, false, some p⟩

/-! ## CompactShape 16-byte encoding (tensor_shape.h) -/

/-- Encoding kind of a `TensorShape`, mirroring `TensorShape::RepKind`
(tensor_shape.h line 101). -/
inductive RepKind where
  | kRep16
  | kRep32
  | kRepExternal
deriving DecidableEq

/-- Whether a dimension list fits the `Rep16` inline layout (tensor_shape.h
lines 103-107): at most 7 dimensions, each below 2^16. -/
def fitsRep16 (dims : List Nat) : Bool :=
  decide (dims.length ≤ 7) && dims.all (fun d => decide (d < 65536))

/-- Whether a dimension list fits the `Rep32` inline layout (tensor_shape.h
lines 108-113): at most 4 dimensions, the first three below 2^32 and the
fourth below 2^16. -/
def fitsRep32 (dims : List Nat) : Bool :=
  decide (dims.length ≤ 4) && dims.all (fun d => decide (d < 4294967296)) &&
    decide (dims.getD 3 0 < 65536)

/-- Modelled from the spec: the `TensorShape(ArrayRef<ssize_t>)` constructor
is declared at tensor_shape.h line 52 but defined in `tensor_shape.cc`, which
is not under src/. Per spec §4.1 it deterministically selects the smallest
sufficient encoding: `Rep16` when rank ≤ 7 and every dimension fits 16 bits,
else `Rep32` when rank ≤ 4 and the dimensions fit the mixed 32/16-bit layout,
else the external representation. -/
def chooseRepKind (dims : List Nat) : RepKind :=
  if fitsRep16 dims then .kRep16
  else if fitsRep32 dims then .kRep32
  else .kRepExternal

/-- Little-endian byte pair of a 16-bit slot. -/
def bytes2 (d : Nat) : List Nat := [d % 256, d / 256 % 256]

/-- Little-endian byte quadruple of a 32-bit slot. -/
def bytes4 (d : Nat) : List Nat :=
  [d % 256, d / 256 % 256, d / 65536 % 256, d / 16777216 % 256]

/-- Dimension list padded with zeros to the fixed slot count of an inline
representation; unused slots read as zero, making the 16-byte image a
function of the dimension list alone (the determinism the header comment at
tensor_shape.h lines 97-100 relies on). -/
def padDims (dims : List Nat) (n : Nat) : List Nat :=
  dims ++ List.replicate (n - dims.length) 0

/-- Sixteen-byte image of the `Rep16` layout (tensor_shape.h lines 103-107):
seven 16-bit dimension slots, the kind byte (0 for `kRep16`) and the rank
byte. -/
def rep16Bytes (dims : List Nat) : List Nat :=
  bytes2 ((padDims dims 7).getD 0 0) ++ bytes2 ((padDims dims 7).getD 1 0) ++
    bytes2 ((padDims dims 7).getD 2 0) ++
    bytes2 ((padDims dims 7).getD 3 0) ++
    bytes2 ((padDims dims 7).getD 4 0) ++
    bytes2 ((padDims dims 7).getD 5 0) ++
    bytes2 ((padDims dims 7).getD 6 0) ++ [0, dims.length]

/-- Sixteen-byte image of the `Rep32` layout (tensor_shape.h lines 108-113):
three 32-bit dimension slots, one 16-bit slot, the kind byte (1 for `kRep32`)
and the rank byte. -/
def rep32Bytes (dims : List Nat) : List Nat :=
  bytes4 ((padDims dims 4).getD 0 0) ++ bytes4 ((padDims dims 4).getD 1 0) ++
    bytes4 ((padDims dims 4).getD 2 0) ++
    bytes2 ((padDims dims 4).getD 3 0) ++ [1, dims.length]

/-- Compact 16-byte encoding of a dimension list: the byte image for the two
inline kinds, `none` for the external representation (whose dimension memory
lives outside the 16-byte block, so byte comparison is not meaningful for
it). -/
def encodeCompact (dims : List Nat) : Option (List Nat) :=
  match chooseRepKind dims with
  | .kRep16 => some (rep16Bytes dims)
  | .kRep32 => some (rep32Bytes dims)
  | .kRepExternal => none

/-- Helper: `getD` with default 0 stays below a bound satisfied by every
element (and by the default). -/
theorem getD_lt_of_all (l : List Nat) (i B : Nat) (hB : 0 < B)
    (hall : ∀ d ∈ l, d < B) : l.getD i 0 < B := by
  induction l generalizing i with
  | nil => simpa [List.getD] using hB
  | cons a t ih =>
    cases i with
    | zero => simpa using hall a (List.mem_cons_self a t)
    | succ j =>
        simpa using ih j (fun d hd => hall d (List.mem_cons_of_mem a hd))

/-- Helper: padding with zeros preserves an elementwise strict bound. -/
theorem padDims_all_lt (l : List Nat) (n B : Nat) (hB : 0 < B)
    (hall : ∀ d ∈ l, d < B) : ∀ d ∈ padDims l n, d < B := by
  intro d hd
  rcases List.mem_append.1 hd with h | h
  · exact hall d h
  · have := List.eq_of_mem_replicate h
    omega

/-- Helper: `getD` past the end of a list returns the default 0. -/
theorem getD_ge_length (l : List Nat) (i : Nat) (h : l.length ≤ i) :
    l.getD i 0 = 0 := by
  induction l generalizing i with
  | nil => simp [List.getD]
  | cons a t ih =>
    cases i with
    | zero => simp at h
    | succ j => simpa using ih j (by simpa using h)

/-- Helper: `getD` on an append stays in the left list below its length. -/
theorem getD_append_left (l r : List Nat) (i : Nat) (h : i < l.length) :
    (l ++ r).getD i 0 = l.getD i 0 := by
  induction l generalizing i with
  | nil => simp at h
  | cons a t ih =>
    cases i with
    | zero => simp
    | succ j => simpa using ih j (by simpa using h)

/-- Helper: `getD` on a zero replicate is 0 at every index. -/
theorem getD_replicate_zero (n i : Nat) :
    (List.replicate n 0).getD i 0 = 0 := by
  induction n generalizing i with
  | zero => simp [List.getD]
  | succ m ih =>
    cases i with
    | zero => simp [List.replicate]
    | succ j => simp [List.replicate]

/-- Helper: padding with zeros does not change any `getD`-read slot. -/
theorem padDims_getD (l : List Nat) (n i : Nat) :
    (padDims l n).getD i 0 = l.getD i 0 := by
  rcases Nat.lt_or_ge i l.length with h | h
  · exact getD_append_left _ _ _ h
  · rw [getD_ge_length l i h]
    rcases Nat.lt_or_ge i (padDims l n).length with h2 | h2
    · unfold padDims at h2 ⊢
      have h3 : i - l.length < (List.replicate (n - l.length) (0 : Nat)).length := by
        simp at h2 ⊢
        omega
      calc (l ++ List.replicate (n - l.length) 0).getD i 0
          = (List.replicate (n - l.length) (0 : Nat)).getD (i - l.length) 0 := by
            rw [List.getD_eq_getElem?_getD, List.getD_eq_getElem?_getD,
              List.getElem?_append_right h]
        _ = 0 := getD_replicate_zero _ _
    · exact getD_ge_length _ _ h2

/-- Helper: two 16-bit slots with equal little-endian bytes are equal. -/
theorem bytes2_inj (x y : Nat) (hx : x < 65536) (hy : y < 65536)
    (h : bytes2 x = bytes2 y) : x = y := by
  simp only [bytes2, List.cons.injEq, and_true] at h
  omega

/-- Helper: two 32-bit slots with equal little-endian bytes are equal. -/
theorem bytes4_inj (x y : Nat) (hx : x < 4294967296) (hy : y < 4294967296)
    (h : bytes4 x = bytes4 y) : x = y := by
  simp only [bytes4, List.cons.injEq, and_true] at h
  omega

/-- Helper: two lists of equal length agreeing on every padded slot agree. -/
theorem eq_of_padDims_getD (l1 l2 : List Nat) (n : Nat)
    (h1 : l1.length ≤ n) (hlen : l1.length = l2.length)
    (h : ∀ i, i < n → (padDims l1 n).getD i 0 = (padDims l2 n).getD i 0) :
    l1 = l2 := by
  apply List.ext_getElem hlen
  intro i hi1 hi2
  have hin : i < n := lt_of_lt_of_le hi1 h1
  have hh := h i hin
  rw [padDims_getD, padDims_getD, List.getD_eq_getElem?_getD,
    List.getD_eq_getElem?_getD, List.getElem?_eq_getElem hi1,
    List.getElem?_eq_getElem hi2] at hh
  simpa using hh

/-- Helper: a dimension list whose chosen kind is `Rep16` fits `Rep16`. -/
theorem fits16_of_choose (d : List Nat)
    (h : chooseRepKind d = RepKind.kRep16) : fitsRep16 d = true := by
  by_cases hf : fitsRep16 d = true
  · exact hf
  · simp only [Bool.not_eq_true] at hf
    by_cases hg : fitsRep32 d = true <;> simp [chooseRepKind, hf, hg] at h

/-- Helper: a dimension list whose chosen kind is `Rep32` fits `Rep32`. -/
theorem fits32_of_choose (d : List Nat)
    (h : chooseRepKind d = RepKind.kRep32) : fitsRep32 d = true := by
  by_cases hf : fitsRep16 d = true
  · simp [chooseRepKind, hf] at h
  · simp only [Bool.not_eq_true] at hf
    by_cases hg : fitsRep32 d = true
    · exact hg
    · simp [chooseRepKind, hf, hg] at h

/-- Helper: a `Rep16` byte image never equals a `Rep32` byte image — they
differ at the kind byte (offset 14: 0 versus 1). -/
theorem rep16Bytes_ne_rep32Bytes (d1 d2 : List Nat) :
    rep16Bytes d1 ≠ rep32Bytes d2 := by
  intro h
  have h14 : (rep16Bytes d1).getD 14 0 = (rep32Bytes d2).getD 14 0 := by
    rw [h]
  have e1 : (rep16Bytes d1).getD 14 0 = 0 := rfl
  have e2 : (rep32Bytes d2).getD 14 0 = 1 := rfl
  rw [e1, e2] at h14
  omega

/-- Helper: the `Rep16` byte image determines the dimension list. -/
theorem rep16Bytes_inj (d1 d2 : List Nat)
    (hf1 : fitsRep16 d1 = true) (hf2 : fitsRep16 d2 = true)
    (h : rep16Bytes d1 = rep16Bytes d2) : d1 = d2 := by
  simp only [fitsRep16, Bool.and_eq_true, decide_eq_true_eq,
    List.all_eq_true] at hf1 hf2
  obtain ⟨hl1, hb1⟩ := hf1
  obtain ⟨hl2, hb2⟩ := hf2
  have q1 : ∀ i, (padDims d1 7).getD i 0 < 65536 := fun i =>
    getD_lt_of_all _ i _ (by omega)
      (padDims_all_lt _ _ _ (by omega) fun d hd => by
        simpa using hb1 d hd)
  have q2 : ∀ i, (padDims d2 7).getD i 0 < 65536 := fun i =>
    getD_lt_of_all _ i _ (by omega)
      (padDims_all_lt _ _ _ (by omega) fun d hd => by
        simpa using hb2 d hd)
  unfold rep16Bytes at h
  obtain ⟨h, htail⟩ := List.append_inj h rfl
  obtain ⟨h, e6⟩ := List.append_inj h rfl
  obtain ⟨h, e5⟩ := List.append_inj h rfl
  obtain ⟨h, e4⟩ := List.append_inj h rfl
  obtain ⟨h, e3⟩ := List.append_inj h rfl
  obtain ⟨h, e2⟩ := List.append_inj h rfl
  obtain ⟨e0, e1⟩ := List.append_inj h rfl
  have g0 := bytes2_inj _ _ (q1 0) (q2 0) e0
  have g1 := bytes2_inj _ _ (q1 1) (q2 1) e1
  have g2 := bytes2_inj _ _ (q1 2) (q2 2) e2
  have g3 := bytes2_inj _ _ (q1 3) (q2 3) e3
  have g4 := bytes2_inj _ _ (q1 4) (q2 4) e4
  have g5 := bytes2_inj _ _ (q1 5) (q2 5) e5
  have g6 := bytes2_inj _ _ (q1 6) (q2 6) e6
  have hlen : d1.length = d2.length := by
    simpa using htail
  apply eq_of_padDims_getD d1 d2 7 hl1 hlen
  intro i hi
  interval_cases i <;> assumption

/-- Helper: the `Rep32` byte image determines the dimension list. -/
theorem rep32Bytes_inj (d1 d2 : List Nat)
    (hf1 : fitsRep32 d1 = true) (hf2 : fitsRep32 d2 = true)
    (h : rep32Bytes d1 = rep32Bytes d2) : d1 = d2 := by
  simp only [fitsRep32, Bool.and_eq_true, decide_eq_true_eq,
    List.all_eq_true] at hf1 hf2
  obtain ⟨⟨hl1, hb1⟩, hc1⟩ := hf1
  obtain ⟨⟨hl2, hb2⟩, hc2⟩ := hf2
  have q1 : ∀ i, (padDims d1 4).getD i 0 < 4294967296 := fun i =>
    getD_lt_of_all _ i _ (by omega)
      (padDims_all_lt _ _ _ (by omega) fun d hd => by
        simpa using hb1 d hd)
  have q2 : ∀ i, (padDims d2 4).getD i 0 < 4294967296 := fun i =>
    getD_lt_of_all _ i _ (by omega)
      (padDims_all_lt _ _ _ (by omega) fun d hd => by
        simpa using hb2 d hd)
  have r1 : (padDims d1 4).getD 3 0 < 65536 := by
    rw [padDims_getD]
    exact hc1
  have r2 : (padDims d2 4).getD 3 0 < 65536 := by
    rw [padDims_getD]
    exact hc2
  unfold rep32Bytes at h
  obtain ⟨h, htail⟩ := List.append_inj h rfl
  obtain ⟨h, e3⟩ := List.append_inj h rfl
  obtain ⟨h, e2⟩ := List.append_inj h rfl
  obtain ⟨e0, e1⟩ := List.append_inj h rfl
  have g0 := bytes4_inj _ _ (q1 0) (q2 0) e0
  have g1 := bytes4_inj _ _ (q1 1) (q2 1) e1
  have g2 := bytes4_inj _ _ (q1 2) (q2 2) e2
  have g3 := bytes2_inj _ _ r1 r2 e3
  have hlen : d1.length = d2.length := by
    simpa using htail
  apply eq_of_padDims_getD d1 d2 4 hl1 hlen
  intro i hi
  interval_cases i <;> assumption

/-! ## Theorems for claims C6, C7, C8, C10 -/

/-- Claim C6 counterexample: moving from a `TensorShape` that stores the
single dimension 5 in the inline `Rep16` representation leaves the source
with rank 1, not the rank-0 empty state the claim requires for every
representation — the move operations only reset external sources. -/
theorem c6_inline_source_counterexample :
    ¬ ((moveConstruct (ShapeRep.inlineRep16 [5])).2.rank = 0) := by
  decide

/-- Claim C6 (amended): after a move, the source owns no external dimension
memory and is in a valid state; a source that used the external
representation is reset to the empty rank-0 inline state, while a source that
used an inline representation retains its previous inline value (and hence
its previous rank). -/
theorem c6_moved_from_state (r : ShapeRep) :
    (moveConstruct r).2.ownsExternalMemory = false ∧
    (r.ownsExternalMemory = true →
      (moveConstruct r).2 = ShapeRep.inlineRep16 [] ∧
        (moveConstruct r).2.rank = 0) ∧
    (r.ownsExternalMemory = false → (moveConstruct r).2 = r) := by
  cases r <;>
    simp [moveConstruct, movedFromState, ShapeRep.ownsExternalMemory,
      ShapeRep.rank]

/-- Claim C6 witness: the amended statement evaluated on an external-memory
source holding the dimensions [3, 4]. -/
theorem c6_moved_from_state_witness :
    (moveConstruct (ShapeRep.externalRep [3, 4])).2.ownsExternalMemory =
        false ∧
    ((ShapeRep.externalRep [3, 4]).ownsExternalMemory = true →
      (moveConstruct (ShapeRep.externalRep [3, 4])).2 =
          ShapeRep.inlineRep16 [] ∧
        (moveConstruct (ShapeRep.externalRep [3, 4])).2.rank = 0) ∧
    ((ShapeRep.externalRep [3, 4]).ownsExternalMemory = false →
      (moveConstruct (ShapeRep.externalRep [3, 4])).2 =
        ShapeRep.externalRep [3, 4]) :=
  c6_moved_from_state (ShapeRep.externalRep [3, 4])

/-- Helper: folding wrapping multiplication from a reduced accumulator equals
the accumulator times the product of the list, reduced modulo 2^64. -/
theorem foldl_mul_mod_eq_prod_mod (l : List Nat) (a : Nat) :
    l.foldl (fun result d => result * d % 18446744073709551616)
        (a % 18446744073709551616) =
      a * l.prod % 18446744073709551616 := by
  induction l generalizing a with
  | nil => simp
  | cons x xs ih =>
    simp only [List.foldl_cons, List.prod_cons]
    have h1 : a % 18446744073709551616 * x % 18446744073709551616 =
        a * x % 18446744073709551616 := by
      rw [Nat.mul_mod, Nat.mod_mod_of_dvd _ (dvd_refl 18446744073709551616),
        ← Nat.mul_mod]
    rw [h1, ih (a * x), Nat.mul_assoc]

/-- Claim C7 counterexample: the dimension list [2^32, 2^32] (each dimension
well inside the ssize_t range) has product 2^64, but `GetNumElements`
multiplies in `std::size_t` and wraps to 0 — so the number of elements does
not equal the product of the dimensions. -/
theorem c7_wrap_counterexample :
    fixedRankShapeNumElements [4294967296, 4294967296] = 0 ∧
    ([4294967296, 4294967296] : List Nat).prod = 18446744073709551616 ∧
    fixedRankShapeNumElements [4294967296, 4294967296] ≠
      ([4294967296, 4294967296] : List Nat).prod := by
  refine ⟨by decide, by decide, by decide⟩

/-- Claim C7 (amended): the number of elements of a shape is the product of
all its dimensions reduced modulo 2^64 (`std::size_t` arithmetic) — hence the
exact product whenever that product fits in 64 bits: the empty (zero-rank)
dimension list yields 1, [2, 3, 4] yields 24, and any dimension list
containing a zero yields 0. -/
theorem c7_num_elements :
    (∀ dims : List Nat,
      fixedRankShapeNumElements dims =
        dims.prod % 18446744073709551616) ∧
    (∀ dims : List Nat, dims.prod < 18446744073709551616 →
      fixedRankShapeNumElements dims = dims.prod) ∧
    fixedRankShapeNumElements [] = 1 ∧
    fixedRankShapeNumElements [2, 3, 4] = 24 ∧
    (∀ dims : List Nat, 0 ∈ dims → fixedRankShapeNumElements dims = 0) := by
  have hprod : ∀ dims : List Nat,
      fixedRankShapeNumElements dims =
        dims.prod % 18446744073709551616 := by
    intro dims
    have h0 : (1 : Nat) = 1 % 18446744073709551616 := by decide
    unfold fixedRankShapeNumElements
    rw [h0, foldl_mul_mod_eq_prod_mod dims 1, Nat.one_mul]
  refine ⟨hprod, ?_, by decide, by decide, ?_⟩
  · intro dims hlt
    rw [hprod dims]
    exact Nat.mod_eq_of_lt hlt
  · intro dims hmem
    rw [hprod dims, List.prod_eq_zero hmem]
    decide

/-- Claim C7 witness: the fits-in-64-bits clause evaluated on [2, 3, 4] and
the zero-dimension clause evaluated on [4, 0, 6]. -/
theorem c7_num_elements_witness :
    fixedRankShapeNumElements [2, 3, 4] = ([2, 3, 4] : List Nat).prod ∧
    fixedRankShapeNumElements [4, 0, 6] = 0 :=
  ⟨c7_num_elements.2.1 [2, 3, 4] (by decide),
    c7_num_elements.2.2.2.2 [4, 0, 6] (by decide)⟩

/-- Claim C8: for every error cell `c` currently in the error state `e`,
`TensorHandle::CreateError c` makes both the deferred metadata slot and the
deferred tensor payload alias the cell `c` itself, so both resolve to the
same error `e`. -/
theorem c8_create_error_alias (σ : CellId → AVR) (c : CellId) (e : Nat)
    (hc : σ c = AVR.error e) :
    (TensorHandleM.createError c).metadata = MetadataSlot.asyncMeta c ∧
    (TensorHandleM.createError c).tensorCell = c ∧
    resolveMetadata σ (TensorHandleM.createError c) =
      some (AVR.error e) ∧
    resolveTensor σ (TensorHandleM.createError c) = AVR.error e := by
  refine ⟨rfl, rfl, ?_, ?_⟩ <;>
    simp [resolveMetadata, resolveTensor, TensorHandleM.createError, hc]

/-- Claim C8 witness: the statement evaluated on cell 0 under a state map
resolving every cell to the error 3. -/
theorem c8_create_error_alias_witness :
    (TensorHandleM.createError 0).metadata = MetadataSlot.asyncMeta 0 ∧
    (TensorHandleM.createError 0).tensorCell = 0 ∧
    resolveMetadata (fun _ => AVR.error 3) (TensorHandleM.createError 0) =
      some (AVR.error 3) ∧
    resolveTensor (fun _ => AVR.error 3) (TensorHandleM.createError 0) =
      AVR.error 3 :=
  c8_create_error_alias (fun _ => AVR.error 3) 0 3 rfl

/-- Claim C10: an attribute tagged with the empty-array tag satisfies
`isa<AggregateAttr>` (not only the aggregate tag), such a view reports zero
elements, and for every view admitted by `classof`, `GetAttribute i` succeeds
exactly when `i < GetNumElements()`. -/
theorem c10_aggregate_view (dt : Nat) (a : BEFAttrM) (i : Nat) :
    aggregateClassof (BEFAttrM.typedArray dt []) = true ∧
    (BEFAttrM.typedArray dt []).typeTag = BEFAttrType.emptyArray ∧
    aggregateNumElements (BEFAttrM.typedArray dt []) = 0 ∧
    ((aggregateGetAttribute a i).isSome = true →
      i < aggregateNumElements a) ∧
    (aggregateClassof a = true → i < aggregateNumElements a →
      (aggregateGetAttribute a i).isSome = true) := by
  refine ⟨by simp [aggregateClassof, BEFAttrM.typeTag], by
    simp [BEFAttrM.typeTag], rfl, ?_, ?_⟩
  · intro hsome
    by_contra hlt
    simp [aggregateGetAttribute, hlt] at hsome
  · intro hcls hlt
    cases a with
    | aggregate es =>
        simp only [aggregateNumElements] at hlt
        simp [aggregateGetAttribute, aggregateNumElements, hlt,
          List.getElem?_eq_getElem hlt]
    | typedArray dt2 es =>
        cases es with
        | nil => simp [aggregateNumElements] at hlt
        | cons x xs => simp [aggregateClassof, BEFAttrM.typeTag] at hcls
    | scalar t =>
        simp [aggregateNumElements] at hlt

/-- Claim C10 witness: the statement evaluated on the element type 9, the
two-element aggregate [11, 12] and the index 1. -/
theorem c10_aggregate_view_witness :
    aggregateClassof (BEFAttrM.typedArray 9 []) = true ∧
    (BEFAttrM.typedArray 9 []).typeTag = BEFAttrType.emptyArray ∧
    aggregateNumElements (BEFAttrM.typedArray 9 []) = 0 ∧
    ((aggregateGetAttribute (BEFAttrM.aggregate [11, 12]) 1).isSome = true →
      1 < aggregateNumElements (BEFAttrM.aggregate [11, 12])) ∧
    (aggregateClassof (BEFAttrM.aggregate [11, 12]) = true →
      1 < aggregateNumElements (BEFAttrM.aggregate [11, 12]) →
      (aggregateGetAttribute (BEFAttrM.aggregate [11, 12]) 1).isSome =
        true) :=
  c10_aggregate_view 9 (BEFAttrM.aggregate [11, 12]) 1

/-- Claim C1 counterexample: with the op handler and input chain concrete, a
runtime bound, and the single argument already resolved to the error 7,
`ExecuteOpSeq` still invokes `CoreRuntime::MakeOp` — the slow-path
continuation constructs the op before scanning the arguments for errors —
contradicting the claim that the MakeOp/dispatch path is never entered; the
error is nonetheless forwarded to the output chain and both results. -/
theorem c1_makeop_counterexample :
    (executeOpSeq true AVR.concrete AVR.concrete [AVR.error 7] none
        2).madeOp = true ∧
    (executeOpSeq true AVR.concrete AVR.concrete [AVR.error 7] none
        2).results = [AVR.error 7, AVR.error 7] := by
  decide

/-- Claim C1 (amended): if the op handler, the input chain, or any argument
is already resolved to an error, and `MakeOp` itself succeeds, then
`ExecuteOpSeq` resolves the output chain and every declared result to the
first such error in the code's check order (the op handler, then the chain,
then the arguments — so a single pre-resolved error `E` is forwarded exactly
as `E`), and the op itself is never run; `MakeOp`, however, may still be
invoked before an argument error is discovered. -/
theorem c1_seq_error_propagation (opHandler inChain : AVR) (args : List AVR)
    (n e : Nat) (hfirst : seqFirstError opHandler inChain args = some e) :
    (executeOpSeq true opHandler inChain args none n).outChain =
      some (AVR.error e) ∧
    (executeOpSeq true opHandler inChain args none n).results =
      List.replicate n (AVR.error e) ∧
    (executeOpSeq true opHandler inChain args none n).opRun = false := by
  cases opHandler with
  | error e2 =>
      simp only [seqFirstError, Option.some.injEq] at hfirst
      subst hfirst
      simp [executeOpSeq, AVR.isConcrete, propagateErr]
  | concrete =>
    cases inChain with
    | error e2 =>
        simp only [seqFirstError, Option.some.injEq] at hfirst
        subst hfirst
        by_cases hall : args.all AVR.isConcrete = true
        · simp [executeOpSeq, AVR.isConcrete, hall, executeOpImplModel]
        · simp only [Bool.not_eq_true] at hall
          simp [executeOpSeq, AVR.isConcrete, hall, propagateErr]
    | concrete =>
        simp only [seqFirstError] at hfirst
        have hall := firstError_some_not_all_concrete args e hfirst
        simp [executeOpSeq, AVR.isConcrete, hall, hfirst, propagateErr]

/-- Claim C1 witness: the amended statement evaluated with a concrete op
handler and chain and one argument resolved to the error 7, asking for two
results. -/
theorem c1_seq_error_propagation_witness :
    (executeOpSeq true AVR.concrete AVR.concrete [AVR.error 7] none
        2).outChain = some (AVR.error 7) ∧
    (executeOpSeq true AVR.concrete AVR.concrete [AVR.error 7] none
        2).results = List.replicate 2 (AVR.error 7) ∧
    (executeOpSeq true AVR.concrete AVR.concrete [AVR.error 7] none
        2).opRun = false :=
  c1_seq_error_propagation AVR.concrete AVR.concrete [AVR.error 7] 2 7
    (by decide)

/-- Claim C9 counterexample: the configuration error both kernels report when
no runtime is bound carries the message "no CoreRuntime available", not the
message "no runtime available" stated by the claim. -/
theorem c9_message_counterexample :
    (executeOp false false).reported = some "no CoreRuntime available" ∧
    (executeOp false false).reported ≠ some "no runtime available" ∧
    (executeOpSeq false AVR.concrete AVR.concrete [] none 1).reported =
      some "no CoreRuntime available" := by
  refine ⟨rfl, ?_, rfl⟩
  decide

/-- Claim C9 (amended): for every invocation of `ExecuteOp` or `ExecuteOpSeq`
in an execution context with no runtime bound, the kernel reports the
"no CoreRuntime available" configuration error — returning normally rather
than throwing — and this precondition is checked at each entry point before
any result placeholder is allocated and before any op is constructed or
dispatched. -/
theorem c9_no_runtime_checked (makeOpFailed : Bool) (opHandler inChain : AVR)
    (args : List AVR) (makeOpError : Option Nat) (n : Nat) :
    executeOp false makeOpFailed =
      ⟨some "no CoreRuntime available", false, false, false⟩ ∧
    executeOpSeq false opHandler inChain args makeOpError n =
      ⟨some "no CoreRuntime available", false, false, false, none, []⟩ := by
  constructor
  · simp [executeOp]
  · simp [executeOpSeq]

/-- Claim C2: in every `ExecuteOpSeq` invocation the op is dispatched no
earlier than the input chain's readiness, the op handler's readiness and
every argument's readiness (also when everything is already resolved and the
fast path runs), the op's completion follows dispatch, and the output chain
becomes ready only with the op's internal completion signal. -/
theorem c2_seq_happens_before (handlerReady chainReady : Nat)
    (argsReady : List Nat) (opDur : Nat) :
    chainReady ≤
        (seqSchedule handlerReady chainReady argsReady opDur).dispatch ∧
    handlerReady ≤
        (seqSchedule handlerReady chainReady argsReady opDur).dispatch ∧
    (∀ a ∈ argsReady,
      a ≤ (seqSchedule handlerReady chainReady argsReady opDur).dispatch) ∧
    (seqSchedule handlerReady chainReady argsReady opDur).dispatch ≤
      (seqSchedule handlerReady chainReady argsReady opDur).opComplete ∧
    (seqSchedule handlerReady chainReady argsReady opDur).opComplete ≤
      (seqSchedule handlerReady chainReady argsReady opDur).outChainReady := by
  refine ⟨?_, ?_, ?_, ?_, ?_⟩
  · exact Nat.le_max_right _ _
  · exact le_trans (foldl_max_init_le handlerReady argsReady)
      (Nat.le_max_left _ _)
  · intro a ha
    exact le_trans (mem_le_foldl_max argsReady handlerReady a ha)
      (Nat.le_max_left _ _)
  · exact Nat.le_add_right _ _
  · exact le_refl _

/-- Claim C2 witness: the happens-before statement evaluated with the op
handler ready at 1, the chain ready at 5, two arguments ready at 2 and 3,
and an op that takes 4 time units. -/
theorem c2_seq_happens_before_witness :
    5 ≤ (seqSchedule 1 5 [2, 3] 4).dispatch ∧
    1 ≤ (seqSchedule 1 5 [2, 3] 4).dispatch ∧
    (∀ a ∈ [2, 3], a ≤ (seqSchedule 1 5 [2, 3] 4).dispatch) ∧
    (seqSchedule 1 5 [2, 3] 4).dispatch ≤
      (seqSchedule 1 5 [2, 3] 4).opComplete ∧
    (seqSchedule 1 5 [2, 3] 4).opComplete ≤
      (seqSchedule 1 5 [2, 3] 4).outChainReady :=
  c2_seq_happens_before 1 5 [2, 3] 4

/-- Claim C3: once the condition is available as a host tensor, a dense
numeric condition with its single element `v` selects `true_fn` exactly when
`v` is nonzero (for the boolean and every integer/float dtype kind, the
string dtype kind asserting instead), a string condition with sole element
`s` selects `false_fn` exactly when `s` is the empty string, and the selected
function is invoked on the remaining arguments with its results forwarded to
the pre-allocated result placeholders. -/
theorem c3_conditional_predicate (k : DTypeKind) (v : Int) (s : String)
    (trueFn falseFn : List Nat → List Nat) (args : List Nat)
    (hk : k ≠ DTypeKind.stringKind) :
    ifImpl (HostTensorM.dense k [v]) trueFn falseFn args =
      some (v != 0, (if v != 0 then trueFn else falseFn) args.tail) ∧
    ifImpl (HostTensorM.dense DTypeKind.stringKind [v]) trueFn falseFn
      args = none ∧
    ifImpl (HostTensorM.strings [s]) trueFn falseFn args =
      some (s != "", (if s != "" then trueFn else falseFn) args.tail) := by
  refine ⟨?_, rfl, rfl⟩
  cases k with
  | stringKind => exact absurd rfl hk
  | boolKind => rfl
  | i1 => rfl
  | i8 => rfl
  | i16 => rfl
  | i32 => rfl
  | i64 => rfl
  | ui8 => rfl
  | ui16 => rfl
  | ui32 => rfl
  | ui64 => rfl
  | bf16 => rfl
  | f16 => rfl
  | f32 => rfl
  | f64 => rfl

/-- Claim C3 witness: the statement evaluated for a dense i32 condition
holding 5, the string "x", two tagging functions and the argument list
[9, 4] (the 9 playing the condition's slot). -/
theorem c3_conditional_predicate_witness :
    ifImpl (HostTensorM.dense DTypeKind.i32 [5])
        (fun l => 1 :: l) (fun l => 2 :: l) [9, 4] =
      some ((5 : Int) != 0,
        (if (5 : Int) != 0 then (fun l => 1 :: l) else
          fun l => 2 :: l) [9, 4].tail) ∧
    ifImpl (HostTensorM.dense DTypeKind.stringKind [5])
      (fun l => 1 :: l) (fun l => 2 :: l) [9, 4] = none ∧
    ifImpl (HostTensorM.strings ["x"])
        (fun l => 1 :: l) (fun l => 2 :: l) [9, 4] =
      some ("x" != "",
        (if "x" != "" then (fun l => 1 :: l) else
          fun l => 2 :: l) [9, 4].tail) :=
  c3_conditional_predicate DTypeKind.i32 5 "x"
    (fun l => 1 :: l) (fun l => 2 :: l) [9, 4] (by decide)

/-- Claim C5: for dimension lists that receive a compact (`Rep16`/`Rep32`)
encoding, equal dimension lists select the same encoding kind, and the
16-byte images are equal exactly when the dimension lists are equal — so
byte-wise comparison is a valid equality check for the compact encodings. -/
theorem c5_compact_encoding_eq (d1 d2 : List Nat)
    (h1 : (encodeCompact d1).isSome = true)
    (h2 : (encodeCompact d2).isSome = true) :
    (d1 = d2 → chooseRepKind d1 = chooseRepKind d2) ∧
    (encodeCompact d1 = encodeCompact d2 ↔ d1 = d2) := by
  refine ⟨fun h => by rw [h], ?_, fun h => by rw [h]⟩
  intro h
  cases hk1 : chooseRepKind d1 with
  | kRepExternal => simp [encodeCompact, hk1] at h1
  | kRep16 =>
    cases hk2 : chooseRepKind d2 with
    | kRepExternal => simp [encodeCompact, hk2] at h2
    | kRep16 =>
        simp only [encodeCompact, hk1, hk2, Option.some.injEq] at h
        exact rep16Bytes_inj d1 d2 (fits16_of_choose d1 hk1)
          (fits16_of_choose d2 hk2) h
    | kRep32 =>
        simp only [encodeCompact, hk1, hk2, Option.some.injEq] at h
        exact absurd h (rep16Bytes_ne_rep32Bytes d1 d2)
  | kRep32 =>
    cases hk2 : chooseRepKind d2 with
    | kRepExternal => simp [encodeCompact, hk2] at h2
    | kRep16 =>
        simp only [encodeCompact, hk1, hk2, Option.some.injEq] at h
        exact absurd h.symm (rep16Bytes_ne_rep32Bytes d2 d1)
    | kRep32 =>
        simp only [encodeCompact, hk1, hk2, Option.some.injEq] at h
        exact rep32Bytes_inj d1 d2 (fits32_of_choose d1 hk1)
          (fits32_of_choose d2 hk2) h

/-- Claim C5 witness: the statement evaluated on the Rep16-encoded list
[2, 3] and the Rep32-encoded list [70000] (one dimension above 2^16). -/
theorem c5_compact_encoding_eq_witness :
    (([2, 3] : List Nat) = [70000] →
      chooseRepKind [2, 3] = chooseRepKind [70000]) ∧
    (encodeCompact [2, 3] = encodeCompact [70000] ↔
      ([2, 3] : List Nat) = [70000]) :=
  c5_compact_encoding_eq [2, 3] [70000] (by decide) (by decide)

/-- Claim C4 evidence: at each failing input — the condition handle cell, the
underlying tensor cell, or the host-tensor conversion already resolved to the
error 7 — `CoreRtConditional` forwards the error to both declared result
placeholders without invoking either function, but then falls through
(`handle_error_and_return` cannot return from the enclosing continuation)
into reading the concrete payload of the errored cell, a contract violation
(assertion failure) instead of a clean short-circuit. -/
theorem c4_error_forward_then_crash :
    coreRtConditional (AVR.error 7) AVR.concrete AVR.concrete
        (HostTensorM.strings ["x"]) (fun l => l) (fun l => l) [0, 1] 2 =
      ⟨[CondResult.errorFwd 7, CondResult.errorFwd 7], true, none⟩ ∧
    coreRtConditional AVR.concrete (AVR.error 7) AVR.concrete
        (HostTensorM.strings ["x"]) (fun l => l) (fun l => l) [0, 1] 2 =
      ⟨[CondResult.errorFwd 7, CondResult.errorFwd 7], true, none⟩ ∧
    coreRtConditional AVR.concrete AVR.concrete (AVR.error 7)
        (HostTensorM.strings ["x"]) (fun l => l) (fun l => l) [0, 1] 2 =
      ⟨[CondResult.errorFwd 7, CondResult.errorFwd 7], true, none⟩ :=
  ⟨rfl, rfl, rfl⟩

end TfrtSpec
